import Mathlib

/-
Verification of the BBudget weekly budget tracker.

Shallow embedding of the logic core (src/utils.ts and src/storage.ts):

* A JavaScript `Date` is modelled as an `Int` of milliseconds since the Unix
  epoch.  The model fixes the local timezone to a zero UTC offset with no
  daylight-saving shifts, so local civil fields (day of week, day of month,
  month) are pure functions of the millisecond value.  Under a fixed offset,
  `Date.prototype.setDate(n)` replaces the day-of-month by `n` (with the usual
  month normalization for out-of-range `n`) while keeping the time of day,
  which is exactly a shift by `(n - getDate()) * 86400000` milliseconds;
  `setHours(0,0,0,0)` floors to the day boundary, and `setHours(23,59,59,999)`
  floors to the day boundary and adds `86399999`.
* Civil dates are recovered from epoch days by the standard Gregorian
  `civilFromDays` algorithm (returning year, 1-based month, day of month).
* JavaScript numbers used as money amounts are modelled as rationals; the
  totals below fold `(+)` over lists in exactly the order the source code does.
* `AsyncStorage` persistence is outside the logic core: `addTransaction` and
  `removeTransaction` are modelled as the pure state transformers they compute
  before saving, and the current instant `new Date()` / `Date.now()` is passed
  in explicitly as a `now : Int` parameter.
-/

/-- Days since the epoch of an instant (JavaScript `Day(t)`, a floor division:
Lean's `Int` division is Euclidean, which is floor division for the positive
divisor `86400000`). -/
def epochDay (t : Int) : Int := t / 86400000

/-- Gregorian civil date `(year, month, dayOfMonth)` from a count of days since
1970-01-01, months 1..12 (the standard `civil_from_days` algorithm). -/
def civilFromDays (z0 : Int) : Int × Int × Int :=
  let z := z0 + 719468
  let era := z / 146097
  let doe := z - era * 146097
  let yoe := (doe - doe / 1460 + doe / 36524 - doe / 146096) / 365
  let y := yoe + era * 400
  let doy := doe - (365 * yoe + yoe / 4 - yoe / 100)
  let mp := (5 * doy + 2) / 153
  let d := doy - (153 * mp + 2) / 5 + 1
  let m := mp + (if mp < 10 then 3 else -9)
  (y + (if m ≤ 2 then 1 else 0), m, d)

/-- JavaScript `Date.prototype.getDay`: day of week, Sunday = 0 .. Saturday = 6
(1970-01-01, epoch day 0, was a Thursday, weekday 4). -/
def getDay (t : Int) : Int := (4 + epochDay t) % 7

/-- JavaScript `Date.prototype.getDate`: day of month, 1-based. -/
def getDate (t : Int) : Int := (civilFromDays (epochDay t)).2.2

/-- JavaScript `Date.prototype.getMonth`: month, 0-based (January = 0). -/
def getMonth (t : Int) : Int := (civilFromDays (epochDay t)).2.1 - 1

/-- JavaScript `Date.prototype.setDate n`: keep year, month and time of day,
set the day of month to `n` (out-of-range values roll over); under a fixed
UTC offset this is a shift by whole days. -/
def setDate (t n : Int) : Int := t + (n - getDate t) * 86400000

/-- JavaScript `setHours(0, 0, 0, 0)`: local midnight of the same civil day. -/
def setMidnight (t : Int) : Int := (t / 86400000) * 86400000

/-- JavaScript `setHours(23, 59, 59, 999)`: last millisecond of the civil day. -/
def setEndOfDay (t : Int) : Int := (t / 86400000) * 86400000 + 86399999

/-- `getWeekStart` from src/utils.ts: the Monday of the week of `date`, at
local midnight, with Sunday counted into the week begun the previous Monday.
Source: `diff = d.getDate() - day + (day === 0 ? -6 : 1); d.setDate(diff);
d.setHours(0,0,0,0)`. -/
def getWeekStart (date : Int) : Int :=
  let day := getDay date
  let diff := getDate date - day + (if day = 0 then -6 else 1)
  setMidnight (setDate date diff)

/-- `getWeekEnd` from src/utils.ts: `weekStart.getDate() + 6` via `setDate`,
then `setHours(23,59,59,999)`. -/
def getWeekEnd (date : Int) : Int :=
  let weekStart := getWeekStart date
  setEndOfDay (setDate weekStart (getDate weekStart + 6))

/-- `isSameWeek` from src/utils.ts: equal normalized week starts
(`getTime()` equality of the two `getWeekStart` values). -/
def isSameWeek (date1 date2 : Int) : Prop := getWeekStart date1 = getWeekStart date2

instance instDecidableIsSameWeek (date1 date2 : Int) : Decidable (isSameWeek date1 date2) :=
  inferInstanceAs (Decidable (getWeekStart date1 = getWeekStart date2))

/-- `isSameDay` from src/utils.ts: `toDateString()` equality, i.e. the same
civil calendar day, i.e. (under the fixed offset) the same epoch day. -/
def isSameDay (date1 date2 : Int) : Prop := epochDay date1 = epochDay date2

instance instDecidableIsSameDay (date1 date2 : Int) : Decidable (isSameDay date1 date2) :=
  inferInstanceAs (Decidable (epochDay date1 = epochDay date2))

/-- `Transaction` from src/types.ts (amounts as rationals, timestamps in ms). -/
structure Transaction where
  id : String
  name : String
  amount : ℚ
  timestamp : Int
deriving DecidableEq

/-- `WeekData` from src/types.ts. -/
structure WeekData where
  weekStart : Int
  transactions : List Transaction
  dailyTotal : ℚ
  weeklyTotal : ℚ
deriving DecidableEq

/-- `BudgetData` from src/types.ts. -/
structure BudgetData where
  currentWeek : WeekData
  previousWeeks : List WeekData
deriving DecidableEq

/-- `calculateDailyTotal` from src/utils.ts: filter by `isSameDay` against
`date`, then reduce `(total, t) => total + t.amount` from 0. -/
def calculateDailyTotal (transactions : List Transaction) (date : Int) : ℚ :=
  ((transactions.filter fun t => decide (isSameDay t.timestamp date)).foldl
    (fun total t => total + t.amount) 0)

/-- `calculateWeeklyTotal` from src/utils.ts: filter by
`weekStart <= timestamp && timestamp <= weekEnd`, then reduce from 0. -/
def calculateWeeklyTotal (transactions : List Transaction) (weekStart : Int) : ℚ :=
  let weekEnd := getWeekEnd weekStart
  ((transactions.filter fun t =>
      decide (weekStart ≤ t.timestamp) && decide (t.timestamp ≤ weekEnd)).foldl
    (fun total t => total + t.amount) 0)

/-- `createWeekData` from src/utils.ts; `now` models the `new Date()` the
source reads internally (`dailyTotal` is computed against that instant,
`weeklyTotal` against the bucket's own `weekStart`). -/
def createWeekData (now weekStart : Int) (transactions : List Transaction) : WeekData :=
  { weekStart := weekStart
    transactions := transactions
    dailyTotal := calculateDailyTotal transactions now
    weeklyTotal := calculateWeeklyTotal transactions weekStart }

/-- The `updateWeek` closure inside `removeTransaction` (src/storage.ts):
rebuild a bucket matching the target week with the given id filtered out,
return any other bucket unchanged. -/
def updateWeek (now targetWeekStart : Int) (transactionId : String)
    (week : WeekData) : WeekData :=
  if isSameWeek week.weekStart targetWeekStart then
    createWeekData now week.weekStart
      (week.transactions.filter fun t => t.id != transactionId)
  else week

/-- `removeTransaction` from src/storage.ts (minus the storage write): apply
`updateWeek` to the current week and to every previous week. -/
def removeTransaction (now : Int) (currentData : BudgetData)
    (transactionId : String) (weekStartToEdit : Int) : BudgetData :=
  let targetWeekStart := getWeekStart weekStartToEdit
  { currentWeek := updateWeek now targetWeekStart transactionId currentData.currentWeek
    previousWeeks :=
      currentData.previousWeeks.map (updateWeek now targetWeekStart transactionId) }

/-- `addTransaction` from src/storage.ts (minus the storage write): the new
transaction's id is `Date.now().toString()` and its timestamp is `new Date()`,
both modelled by the single instant `now`. -/
def addTransaction (now : Int) (name : String) (amount : ℚ)
    (currentData : BudgetData) : BudgetData :=
  let newTransaction : Transaction :=
    { id := toString now, name := name, amount := amount, timestamp := now }
  let currentWeekStart := getWeekStart now
  if isSameWeek currentData.currentWeek.weekStart currentWeekStart then
    { currentData with
        currentWeek := createWeekData now currentWeekStart
          (currentData.currentWeek.transactions ++ [newTransaction]) }
  else
    { currentWeek := createWeekData now currentWeekStart [newTransaction]
      previousWeeks := currentData.previousWeeks ++ [currentData.currentWeek] }

/-- Short month names, as produced by
`toLocaleDateString('en-US', \x7b month: 'short' \x7d)`. -/
def monthShortNames : List String :=
  ["Jan", "Feb", "Mar", "Apr", "May", "Jun", "Jul", "Aug", "Sep", "Oct", "Nov", "Dec"]

/-- Fallback for an out-of-range month index (never reached on real dates). -/
def noMonth : String := ""

/-- The en-US short month name of an instant. -/
def monthShort (t : Int) : String := monthShortNames.getD (getMonth t).toNat noMonth

/-- `getWeekLabel` from src/utils.ts: template literals rendered as string
concatenation, `${day}` rendering an integer with no leading zeros. -/
def getWeekLabel (weekStart : Int) : String :=
  let weekEnd := getWeekEnd weekStart
  let startMonth := monthShort weekStart
  let startDay := getDate weekStart
  let endMonth := monthShort weekEnd
  let endDay := getDate weekEnd
  if getMonth weekStart = getMonth weekEnd then
    startMonth ++ " " ++ toString startDay ++ "-" ++ toString endDay
  else
    startMonth ++ " " ++ toString startDay ++ " - " ++ endMonth ++ " " ++ toString endDay

/-- The sum of the amounts of a list of transactions (specification-side
reading of the reduce loops in src/utils.ts). -/
def sumAmounts (transactions : List Transaction) : ℚ :=
  (transactions.map Transaction.amount).sum

/- Concrete test data for the witnesses.  1970-01-05 (epoch day 4) was a
Monday; all instants below are placed in its neighbourhood so that the
kernel can evaluate the calendar functions cheaply. -/

/-- 1970-01-05 00:00:00.000, a Monday at local midnight. -/
def mondayJan5 : Int := 345600000

/-- A Wednesday inside the week of `mondayJan5` (1970-01-07 01:00). -/
def wednesdayJan7 : Int := 522000000

/-- One millisecond into the Monday one week after `mondayJan5`. -/
def mondayJan12 : Int := mondayJan5 + 604800000 + 1

/-- A Sunday with a nonzero time of day (1970-01-11 00:00:05). -/
def sundayJan11 : Int := 10 * 86400000 + 5000

/-- A transaction logged on Monday 1970-01-05, amount 5. -/
def coffeeTx : Transaction :=
  { id := "100", name := "Coffee", amount := 5, timestamp := mondayJan5 + 1000 }

/-- A bucket for the week of `mondayJan5` holding `coffeeTx`, with totals as
they were computed on that Monday. -/
def coffeeWeek : WeekData :=
  { weekStart := mondayJan5, transactions := [coffeeTx], dailyTotal := 5
    weeklyTotal := 5 }

/-- A ledger whose current week is `coffeeWeek`, with no history. -/
def coffeeLedger : BudgetData := { currentWeek := coffeeWeek, previousWeeks := [] }

/-- An empty bucket for the week of `mondayJan5`. -/
def emptyWeek : WeekData :=
  { weekStart := mondayJan5, transactions := [], dailyTotal := 0, weeklyTotal := 0 }

/-- A ledger holding only the empty bucket for the week of `mondayJan5`. -/
def emptyLedger : BudgetData := { currentWeek := emptyWeek, previousWeeks := [] }

/-- An archived bucket for the week before `mondayJan5`. -/
def olderWeek : WeekData :=
  { weekStart := mondayJan5 - 604800000, transactions := [], dailyTotal := 0
    weeklyTotal := 0 }

/-- A ledger with `coffeeWeek` current and `olderWeek` archived. -/
def historyLedger : BudgetData :=
  { currentWeek := coffeeWeek, previousWeeks := [olderWeek] }

/-- A duplicate-id transaction, first copy. -/
def dupTxA : Transaction :=
  { id := "7", name := "first", amount := 1, timestamp := mondayJan5 + 1000 }

/-- A transaction with a distinct id, kept by the duplicate-removal witness. -/
def keepTx : Transaction :=
  { id := "8", name := "kept", amount := 2, timestamp := mondayJan5 + 2000 }

/-- A duplicate-id transaction, second copy. -/
def dupTxB : Transaction :=
  { id := "7", name := "second", amount := 3, timestamp := mondayJan5 + 3000 }

/-- A bucket holding two transactions with the same id around a third one. -/
def dupWeek : WeekData :=
  { weekStart := mondayJan5, transactions := [dupTxA, keepTx, dupTxB]
    dailyTotal := 0, weeklyTotal := 6 }

/-- A ledger whose current week is `dupWeek`. -/
def dupLedger : BudgetData := { currentWeek := dupWeek, previousWeeks := [] }

/-- 2025-07-07 00:00 (epoch day 20276), the Monday of an intra-month week. -/
def julySeventh : Int := 1751846400000

/-- 2025-07-28 00:00 (epoch day 20297), the Monday of a month-crossing week. -/
def julyTwentyEighth : Int := 1753660800000

/- Helper lemmas about the calendar layer. -/

/-- Closed form of `getWeekStart`: the day-of-month arithmetic cancels and
only the weekday offset remains. -/
theorem getWeekStart_closed (t : Int) :
    getWeekStart t =
      86400000 * (t / 86400000 + (if (4 + t / 86400000) % 7 = 0 then -6 else 1)
        - (4 + t / 86400000) % 7) := by
  unfold getWeekStart setDate setMidnight getDay epochDay
  dsimp only
  generalize getDate t = g
  split <;> omega

theorem getWeekStart_day_aligned (t : Int) : getWeekStart t % 86400000 = 0 := by
  rw [getWeekStart_closed]; omega

theorem getDay_getWeekStart (t : Int) : getDay (getWeekStart t) = 1 := by
  rw [getWeekStart_closed]; unfold getDay epochDay; split <;> omega

theorem getWeekStart_idem (t : Int) : getWeekStart (getWeekStart t) = getWeekStart t := by
  rw [getWeekStart_closed t, getWeekStart_closed]
  split <;> split <;> omega

theorem getWeekEnd_eq (t : Int) : getWeekEnd t = getWeekStart t + 604799999 := by
  have h := getWeekStart_day_aligned t
  unfold getWeekEnd setDate setEndOfDay
  dsimp only
  generalize getDate (getWeekStart t) = g
  omega

theorem isSameWeek_getWeekStart_right (a b : Int) :
    isSameWeek a (getWeekStart b) ↔ getWeekStart a = getWeekStart b := by
  unfold isSameWeek
  rw [getWeekStart_idem]

theorem foldl_add_amount (l : List Transaction) (a : ℚ) :
    l.foldl (fun total t => total + t.amount) a = a + sumAmounts l := by
  induction l generalizing a with
  | nil => simp [sumAmounts]
  | cons h t ih => simp [sumAmounts, ih, add_assoc]

theorem filter_all_eq (l : List Transaction) (p : Transaction → Bool)
    (h : l.all p = true) : l.filter p = l :=
  List.filter_eq_self.mpr (List.all_eq_true.mp h)

theorem updateWeek_weekStart (now target : Int) (tid : String) (w : WeekData) :
    (updateWeek now target tid w).weekStart = w.weekStart := by
  unfold updateWeek createWeekData
  split <;> rfl

theorem updateWeek_not_target (now target : Int) (tid : String) (w : WeekData)
    (h : ¬ isSameWeek w.weekStart target) : updateWeek now target tid w = w := by
  unfold updateWeek
  rw [if_neg h]

theorem updateWeek_no_id (now target : Int) (tid : String) (w : WeekData)
    (h : isSameWeek w.weekStart target) :
    ∀ t ∈ (updateWeek now target tid w).transactions, t.id ≠ tid := by
  unfold updateWeek createWeekData
  rw [if_pos h]
  intro t ht
  dsimp only at ht
  have h2 := (List.mem_filter.mp ht).2
  simpa using h2

/-- Claim C6: for every date `d`, `getWeekStart d` falls on a Monday at local
midnight, a Sunday input belongs to the week that started the previous Monday,
and `getWeekStart` is idempotent. -/
theorem getWeekStart_monday_midnight_idem (d : Int) :
    getDay (getWeekStart d) = 1 ∧
    getWeekStart d % 86400000 = 0 ∧
    getWeekStart (getWeekStart d) = getWeekStart d ∧
    (getDay d = 0 → getWeekStart d = setMidnight d - 6 * 86400000) := by
  refine ⟨getDay_getWeekStart d, getWeekStart_day_aligned d, getWeekStart_idem d,
    fun h => ?_⟩
  unfold getDay epochDay at h
  rw [getWeekStart_closed, if_pos h]
  unfold setMidnight
  omega

/-- Witness for C6 at the concrete Sunday 1970-01-11 00:00:05. -/
theorem getWeekStart_monday_midnight_idem_witness :
    getDay (getWeekStart sundayJan11) = 1 ∧
    getWeekStart sundayJan11 = setMidnight sundayJan11 - 6 * 86400000 :=
  ⟨(getWeekStart_monday_midnight_idem sundayJan11).1,
   (getWeekStart_monday_midnight_idem sundayJan11).2.2.2 (by decide)⟩

/-- Claim C7: for every date `d`, `getWeekEnd d - getWeekStart d` is exactly
6 days, 23 hours, 59 minutes, 59 seconds and 999 milliseconds. -/
theorem getWeekEnd_span (d : Int) :
    getWeekEnd d - getWeekStart d = 604799999 ∧
    getWeekEnd d = getWeekStart d + 6 * 86400000 + 86399999 := by
  have h := getWeekEnd_eq d
  omega

/-- Claim C9: after `addTransaction`, in both branches, the current bucket's
`weekStart` is `getWeekStart now` — a Monday-midnight-normalized instant —
whatever the input ledger's current `weekStart` was. -/
theorem addTransaction_weekStart_normalized (now : Int) (name : String) (amount : ℚ)
    (currentData : BudgetData) :
    (addTransaction now name amount currentData).currentWeek.weekStart
        = getWeekStart now ∧
    getDay ((addTransaction now name amount currentData).currentWeek.weekStart) = 1 ∧
    (addTransaction now name amount currentData).currentWeek.weekStart % 86400000 = 0 := by
  have h : (addTransaction now name amount currentData).currentWeek.weekStart
      = getWeekStart now := by
    unfold addTransaction
    dsimp only
    split <;> rfl
  refine ⟨h, ?_, ?_⟩
  · rw [h]; exact getDay_getWeekStart now
  · rw [h]; exact getWeekStart_day_aligned now

/-- Claim C8: `getWeekLabel` renders "MonShort start-end" when the week's start
and end fall in the same month and "MonShort start - MonShort end" otherwise;
concretely, the week of 2025-07-28 gives "Jul 28 - Aug 3" and the week of
2025-07-07 gives "Jul 7-13". -/
theorem getWeekLabel_format (ws : Int) :
    (getMonth ws = getMonth (getWeekEnd ws) →
      getWeekLabel ws =
        monthShort ws ++ " " ++ toString (getDate ws) ++ "-"
          ++ toString (getDate (getWeekEnd ws))) ∧
    (getMonth ws ≠ getMonth (getWeekEnd ws) →
      getWeekLabel ws =
        monthShort ws ++ " " ++ toString (getDate ws) ++ " - "
          ++ monthShort (getWeekEnd ws) ++ " " ++ toString (getDate (getWeekEnd ws))) ∧
    getWeekLabel julyTwentyEighth = "Jul 28 - Aug 3" ∧
    getWeekLabel julySeventh = "Jul 7-13" := by
  refine ⟨fun h => ?_, fun h => ?_, by decide, by decide⟩
  · unfold getWeekLabel
    dsimp only
    rw [if_pos h]
  · unfold getWeekLabel
    dsimp only
    rw [if_neg h]

/-- Witness for C8: the two format branches at the concrete July 2025 weeks. -/
theorem getWeekLabel_format_witness :
    getWeekLabel julySeventh =
      monthShort julySeventh ++ " " ++ toString (getDate julySeventh) ++ "-"
        ++ toString (getDate (getWeekEnd julySeventh)) ∧
    getWeekLabel julyTwentyEighth =
      monthShort julyTwentyEighth ++ " " ++ toString (getDate julyTwentyEighth) ++ " - "
        ++ monthShort (getWeekEnd julyTwentyEighth) ++ " "
        ++ toString (getDate (getWeekEnd julyTwentyEighth)) :=
  ⟨(getWeekLabel_format julySeventh).1 (by decide),
   (getWeekLabel_format julyTwentyEighth).2.1 (by decide)⟩

/-- Claim C5: `createWeekData` produces a `dailyTotal` equal to the sum of the
amounts of the transactions on the same calendar day as the instant `now` (not
the bucket's `weekStart` day), and a `weeklyTotal` equal to the sum of the
amounts of the transactions with `weekStart ≤ timestamp ≤ getWeekEnd weekStart`,
both bounds inclusive. -/
theorem createWeekData_totals (now weekStart : Int) (transactions : List Transaction) :
    (createWeekData now weekStart transactions).dailyTotal
        = sumAmounts (transactions.filter fun t => decide (isSameDay t.timestamp now)) ∧
    (createWeekData now weekStart transactions).weeklyTotal
        = sumAmounts (transactions.filter fun t =>
            decide (weekStart ≤ t.timestamp ∧ t.timestamp ≤ getWeekEnd weekStart)) := by
  constructor
  · unfold createWeekData calculateDailyTotal
    dsimp only
    rw [foldl_add_amount, zero_add]
  · unfold createWeekData calculateWeeklyTotal
    dsimp only
    rw [foldl_add_amount, zero_add]
    have hp : (fun t : Transaction =>
        decide (weekStart ≤ t.timestamp) && decide (t.timestamp ≤ getWeekEnd weekStart))
        = fun t : Transaction =>
          decide (weekStart ≤ t.timestamp ∧ t.timestamp ≤ getWeekEnd weekStart) := by
      funext t
      simp
    rw [hp]

/-- Claim C1: when the real-world week has advanced past the current bucket's
week, `addTransaction` appends exactly the prior current bucket at the end of
`previousWeeks` (prior order preserved) and makes a fresh current bucket for
`getWeekStart now` holding only the new transaction. -/
theorem addTransaction_rotates (now : Int) (name : String) (amount : ℚ)
    (currentData : BudgetData)
    (h : ¬ isSameWeek currentData.currentWeek.weekStart (getWeekStart now)) :
    (addTransaction now name amount currentData).previousWeeks
        = currentData.previousWeeks ++ [currentData.currentWeek] ∧
    (addTransaction now name amount currentData).currentWeek.weekStart
        = getWeekStart now ∧
    (addTransaction now name amount currentData).currentWeek.transactions
        = [{ id := toString now, name := name, amount := amount, timestamp := now }] := by
  unfold addTransaction
  dsimp only
  rw [if_neg h]
  exact ⟨rfl, rfl, rfl⟩

/-- Witness for C1: adding into a stale empty ledger one week later. -/
theorem addTransaction_rotates_witness :
    (addTransaction mondayJan12 "Lunch" 12 emptyLedger).previousWeeks
        = emptyLedger.previousWeeks ++ [emptyLedger.currentWeek] ∧
    (addTransaction mondayJan12 "Lunch" 12 emptyLedger).currentWeek.weekStart
        = getWeekStart mondayJan12 ∧
    (addTransaction mondayJan12 "Lunch" 12 emptyLedger).currentWeek.transactions
        = [{ id := toString mondayJan12, name := "Lunch", amount := 12,
             timestamp := mondayJan12 }] :=
  addTransaction_rotates mondayJan12 "Lunch" 12 emptyLedger (by decide)

/-- Claim C2: when the current bucket's week is still the week of `now`,
`addTransaction` leaves `previousWeeks` unchanged and appends the new
transaction at the end of the current bucket's transaction list. -/
theorem addTransaction_sameWeek (now : Int) (name : String) (amount : ℚ)
    (currentData : BudgetData)
    (h : isSameWeek currentData.currentWeek.weekStart (getWeekStart now)) :
    (addTransaction now name amount currentData).previousWeeks
        = currentData.previousWeeks ∧
    (addTransaction now name amount currentData).currentWeek.transactions
        = currentData.currentWeek.transactions
            ++ [{ id := toString now, name := name, amount := amount, timestamp := now }] := by
  unfold addTransaction
  dsimp only
  rw [if_pos h]
  exact ⟨rfl, rfl⟩

/-- Witness for C2: adding on a Wednesday of the current bucket's own week. -/
theorem addTransaction_sameWeek_witness :
    (addTransaction wednesdayJan7 "Lunch" 12 coffeeLedger).previousWeeks
        = coffeeLedger.previousWeeks ∧
    (addTransaction wednesdayJan7 "Lunch" 12 coffeeLedger).currentWeek.transactions
        = coffeeLedger.currentWeek.transactions
            ++ [{ id := toString wednesdayJan7, name := "Lunch", amount := 12,
                  timestamp := wednesdayJan7 }] :=
  addTransaction_sameWeek wednesdayJan7 "Lunch" 12 coffeeLedger (by decide)

/-- Claim C3: `removeTransaction` is frame-preserving: the history keeps its
length, and every bucket (current or previous) whose `weekStart` is not in the
normalized target week is returned unchanged — same `weekStart`, transactions,
`dailyTotal` and `weeklyTotal`. -/
theorem removeTransaction_frame (now : Int) (currentData : BudgetData)
    (transactionId : String) (weekStartToEdit : Int) :
    (removeTransaction now currentData transactionId weekStartToEdit).previousWeeks.length
        = currentData.previousWeeks.length ∧
    (getWeekStart currentData.currentWeek.weekStart ≠ getWeekStart weekStartToEdit →
      (removeTransaction now currentData transactionId weekStartToEdit).currentWeek
          = currentData.currentWeek) ∧
    (∀ i : Nat, ∀ w : WeekData, currentData.previousWeeks[i]? = some w →
      getWeekStart w.weekStart ≠ getWeekStart weekStartToEdit →
      (removeTransaction now currentData transactionId weekStartToEdit).previousWeeks[i]?
          = some w) := by
  refine ⟨?_, fun h => ?_, fun i w hw hne => ?_⟩
  · unfold removeTransaction
    dsimp only
    exact List.length_map _ _
  · unfold removeTransaction
    dsimp only
    exact updateWeek_not_target _ _ _ _
      (fun hs => h ((isSameWeek_getWeekStart_right _ _).mp hs))
  · unfold removeTransaction
    dsimp only
    rw [List.getElem?_map, hw, Option.map_some']
    rw [updateWeek_not_target _ _ _ _
      (fun hs => hne ((isSameWeek_getWeekStart_right _ _).mp hs))]

/-- Witness for C3: removing with a target week matching neither the current
bucket nor the archived one leaves both untouched. -/
theorem removeTransaction_frame_witness :
    (removeTransaction wednesdayJan7 historyLedger "100" mondayJan12).currentWeek
        = historyLedger.currentWeek ∧
    (removeTransaction wednesdayJan7 historyLedger "100" mondayJan12).previousWeeks[0]?
        = some olderWeek :=
  ⟨(removeTransaction_frame wednesdayJan7 historyLedger "100" mondayJan12).2.1
      (by decide),
   (removeTransaction_frame wednesdayJan7 historyLedger "100" mondayJan12).2.2 0
      olderWeek (by decide) (by decide)⟩

/-- Claim C10: a single `removeTransaction` call removes every transaction
carrying the given id from the targeted bucket, not only the first occurrence:
no transaction of a matching result bucket carries the id. -/
theorem removeTransaction_removes_all_ids (now : Int) (currentData : BudgetData)
    (transactionId : String) (weekStartToEdit : Int) :
    (isSameWeek currentData.currentWeek.weekStart (getWeekStart weekStartToEdit) →
      ∀ t ∈ (removeTransaction now currentData transactionId
          weekStartToEdit).currentWeek.transactions, t.id ≠ transactionId) ∧
    (∀ w ∈ (removeTransaction now currentData transactionId
        weekStartToEdit).previousWeeks,
      isSameWeek w.weekStart (getWeekStart weekStartToEdit) →
      ∀ t ∈ w.transactions, t.id ≠ transactionId) := by
  constructor
  · intro h
    unfold removeTransaction
    dsimp only
    exact updateWeek_no_id _ _ _ _ h
  · intro w hw hsame
    unfold removeTransaction at hw
    dsimp only at hw
    obtain ⟨v, hv, rfl⟩ := List.mem_map.mp hw
    rw [updateWeek_weekStart] at hsame
    exact updateWeek_no_id _ _ _ _ hsame

/-- Witness for C10: in a bucket holding two transactions with id "7",
removal of "7" leaves a bucket in which the surviving transaction's id
differs from "7". -/
theorem removeTransaction_removes_all_ids_witness : keepTx.id ≠ "7" :=
  (removeTransaction_removes_all_ids wednesdayJan7 dupLedger "7" mondayJan5).1
    (by decide) keepTx (by decide)

/-- Counterexample to C4 as stated: in a ledger whose current bucket stores
the Monday-time totals (dailyTotal 4.50), removing an id that occurs nowhere
in the bucket, on the Wednesday of the same week, still changes the bucket's
`dailyTotal` (it is rebuilt against the Wednesday and becomes 0). -/
theorem removeTransaction_missing_id_cex :
    (coffeeLedger.currentWeek.transactions.all fun t => t.id != "999") = true ∧
    (removeTransaction wednesdayJan7 coffeeLedger "999" mondayJan5).currentWeek.dailyTotal
        ≠ coffeeLedger.currentWeek.dailyTotal := by
  constructor
  · decide
  · decide

/-- Claim C4 (amended): when the given id occurs in no transaction of the
bucket matching the normalized target week, `removeTransaction` keeps that
bucket's `weekStart` and transaction sequence unchanged — a silent no-op on
the sequence, not an error — but rebuilds the bucket's totals: `dailyTotal`
is recomputed against the current instant and `weeklyTotal` against the
bucket's own week, so the stored totals persist only when they already equal
those recomputed values. -/
theorem removeTransaction_missing_id (now : Int) (currentData : BudgetData)
    (transactionId : String) (weekStartToEdit : Int) :
    ((currentData.currentWeek.transactions.all fun t => t.id != transactionId) = true →
      isSameWeek currentData.currentWeek.weekStart (getWeekStart weekStartToEdit) →
      (removeTransaction now currentData transactionId weekStartToEdit).currentWeek
          = { weekStart := currentData.currentWeek.weekStart
              transactions := currentData.currentWeek.transactions
              dailyTotal := calculateDailyTotal currentData.currentWeek.transactions now
              weeklyTotal := calculateWeeklyTotal currentData.currentWeek.transactions
                  currentData.currentWeek.weekStart }) ∧
    (∀ i : Nat, ∀ w : WeekData, currentData.previousWeeks[i]? = some w →
      (w.transactions.all fun t => t.id != transactionId) = true →
      isSameWeek w.weekStart (getWeekStart weekStartToEdit) →
      (removeTransaction now currentData transactionId weekStartToEdit).previousWeeks[i]?
          = some { weekStart := w.weekStart
                   transactions := w.transactions
                   dailyTotal := calculateDailyTotal w.transactions now
                   weeklyTotal := calculateWeeklyTotal w.transactions w.weekStart }) := by
  have key : ∀ w : WeekData,
      (w.transactions.all fun t => t.id != transactionId) = true →
      isSameWeek w.weekStart (getWeekStart weekStartToEdit) →
      updateWeek now (getWeekStart weekStartToEdit) transactionId w
        = { weekStart := w.weekStart
            transactions := w.transactions
            dailyTotal := calculateDailyTotal w.transactions now
            weeklyTotal := calculateWeeklyTotal w.transactions w.weekStart } := by
    intro w hall hsame
    unfold updateWeek
    rw [if_pos hsame, filter_all_eq _ _ hall]
    rfl
  constructor
  · intro hall hsame
    unfold removeTransaction
    dsimp only
    exact key _ hall hsame
  · intro i w hw hall hsame
    unfold removeTransaction
    dsimp only
    rw [List.getElem?_map, hw, Option.map_some', key _ hall hsame]

/-- Witness for the amended C4 at the stale coffee ledger: the sequence and
`weekStart` survive, the totals are the recomputed ones. -/
theorem removeTransaction_missing_id_witness :
    (removeTransaction wednesdayJan7 coffeeLedger "999" mondayJan5).currentWeek
        = { weekStart := coffeeLedger.currentWeek.weekStart
            transactions := coffeeLedger.currentWeek.transactions
            dailyTotal := calculateDailyTotal coffeeLedger.currentWeek.transactions
                wednesdayJan7
            weeklyTotal := calculateWeeklyTotal coffeeLedger.currentWeek.transactions
                coffeeLedger.currentWeek.weekStart } :=
  (removeTransaction_missing_id wednesdayJan7 coffeeLedger "999" mondayJan5).1
    (by decide) (by decide)
